import Mathlib

/-
Verification of the audio mixer core (src/mixer/src/main.cpp) against its
natural-language specification.  The mixer keeps one ring buffer per source,
accumulates a wide master mix each cycle, and sends every live agent a
personalized mix with its own last contribution subtracted and the result
saturated into the signed 16-bit sample range.
-/

namespace Mixer

/-! ### Constants (src/mixer/src/main.cpp lines 18-41) -/

def MAX_AGENTS : Nat := 1000

/-- Liveness window in milliseconds (line 19). -/
def LOGOFF_CHECK_INTERVAL : Int := 1000

def BUFFER_LENGTH_BYTES : Nat := 1024

/-- One frame of samples: 1024 bytes over 2-byte samples (line 24). -/
def BUFFER_LENGTH_SAMPLES : Nat := 512

/-- Jitter threshold in samples (lines 28-29): the double product
20 * (22050 / 1000.0) evaluates to slightly above 441 and the conversion
to short truncates it to 441. -/
def JITTER_BUFFER_SAMPLES : Nat := 441

def RING_BUFFER_FRAMES : Nat := 10

/-- Ring capacity in samples: 10 frames of 512 samples (line 32). -/
def RING_BUFFER_SAMPLES : Nat := 5120

/-- Largest int16_t value (line 34). -/
def MAX_SAMPLE_VALUE : Int := 32767

/-- Smallest int16_t value (line 35). -/
def MIN_SAMPLE_VALUE : Int := -32768

def MAX_SOURCE_BUFFERS : Nat := 20

/-! ### Ring buffer state

The class AudioRingBuffer itself (AudioRingBuffer.h) is not among the
sources; its fields and the cursor discipline are visible at every use site
in main.cpp.  Cursors are modelled as sample offsets from the buffer base
pointer; the write cursor endOfLastWrite is an Option because main.cpp
checks it against NULL (line 91).  Sample storage is modelled as a total
function from offsets to wide integers. -/

structure AudioRingBuffer where
  data : Nat → Int
  nextOutput : Nat
  endOfLastWrite : Option Nat
  started : Bool

/-- Modelled from the spec: the body of diffLastWriteNextOutput lives in
AudioRingBuffer.h, which is not among the sources.  The spec defines the
unread backlog as (w - r + C) mod C, always within [0, C). -/
def diffLastWriteNextOutput (w r : Nat) : Nat :=
  (w + RING_BUFFER_SAMPLES - r) % RING_BUFFER_SAMPLES

/-- Advance a ring cursor by one frame, wrapping to the buffer start when it
reaches or passes the end (main.cpp lines 106-110 for the read cursor and
211-215 for the write cursor). -/
def advanceCursor (p : Nat) : Nat :=
  if RING_BUFFER_SAMPLES ≤ p + BUFFER_LENGTH_SAMPLES then 0
  else p + BUFFER_LENGTH_SAMPLES

/-! ### The mix accumulation loop (main.cpp lines 90-113) -/

/-- Whether a buffer contributes one frame to the master mix this cycle:
its write cursor is non-null, it is not held back (not started with backlog
at most one frame plus the jitter threshold), and it is not starved
(backlog below one frame). -/
def mixes (b : AudioRingBuffer) : Bool :=
  match b.endOfLastWrite with
  | none => false
  | some w =>
    if b.started = false ∧
        diffLastWriteNextOutput w b.nextOutput ≤
          BUFFER_LENGTH_SAMPLES + JITTER_BUFFER_SAMPLES then
      false
    else if diffLastWriteNextOutput w b.nextOutput < BUFFER_LENGTH_SAMPLES then
      false
    else
      true

/-- The buffer state after the mix accumulation loop visits it
(main.cpp lines 90-113): held back unchanged; starved with only the
started flag cleared; otherwise marked started with the read cursor
advanced one frame. -/
def mixStep (b : AudioRingBuffer) : AudioRingBuffer :=
  match b.endOfLastWrite with
  | none => b
  | some w =>
    if b.started = false ∧
        diffLastWriteNextOutput w b.nextOutput ≤
          BUFFER_LENGTH_SAMPLES + JITTER_BUFFER_SAMPLES then
      b
    else if diffLastWriteNextOutput w b.nextOutput < BUFFER_LENGTH_SAMPLES then
      { b with started := false }
    else
      { b with started := true, nextOutput := advanceCursor b.nextOutput }

/-- The master accumulator value at sample index s: the sum, over the fixed
array of MAX_SOURCE_BUFFERS source buffers, of the sample one frame ahead of
the read cursor for every buffer that mixes this cycle (lines 84-86 zero it,
lines 102-104 accumulate). -/
def masterMix (bufs : Fin MAX_SOURCE_BUFFERS → AudioRingBuffer) (s : Nat) : Int :=
  ∑ i : Fin MAX_SOURCE_BUFFERS,
    if mixes (bufs i) then (bufs i).data ((bufs i).nextOutput + s) else 0

/-! ### Agents and the send loop (main.cpp lines 47-57 and 115-156) -/

/-- One entry of the agents table (lines 47-53).  The dotted-quad address
string is modelled as an abstract numeric identity and the timeval as an
integer millisecond count. -/
structure Agent where
  address : Nat
  port : Nat
  active : Bool
  time : Int
  bufferTransmitted : Bool
  deriving DecidableEq

/-- Millisecond difference of two clocks (lines 59-64), timevals modelled
as integer millisecond counts. -/
def diffclock (clock1 clock2 : Int) : Int :=
  clock2 - clock1

/-- The send-loop liveness guard (line 116): an agent is sent a frame only
when the time since its last inbound packet is at most the logoff window. -/
def sendsTo (ag : Agent) (sendTime : Int) : Bool :=
  decide (diffclock ag.time sendTime ≤ LOGOFF_CHECK_INTERVAL)

/-- The agent entry after the mix accumulation loop: line 100 sets
bufferTransmitted exactly when the matching buffer mixes. -/
def agentAfterMix (ag : Agent) (b : AudioRingBuffer) : Agent :=
  if mixes b then { ag with bufferTransmitted := true } else ag

/-- The previousOutput pointer of the send loop (lines 118-124), computed
from the post-mix buffer: one frame behind the read cursor, wrapping to the
last frame of the ring when the cursor sits at the buffer start; NULL when
the buffer did not transmit. -/
def previousOutput (ag : Agent) (b : AudioRingBuffer) : Option Nat :=
  if ag.bufferTransmitted then
    some (if b.nextOutput = 0
      then RING_BUFFER_SAMPLES - BUFFER_LENGTH_SAMPLES
      else b.nextOutput - BUFFER_LENGTH_SAMPLES)
  else none

/-- Saturation of a wide sample into the int16_t range
(main.cpp lines 131-137). -/
def clip (longSample : Int) : Int :=
  if longSample < 0 then max longSample MIN_SAMPLE_VALUE
  else min longSample MAX_SAMPLE_VALUE

/-- One sample of the personalized client mix (lines 126-139): the master
value minus the sample of the own previous output when one exists, then
clipped. -/
def clientMixSample (master : Nat → Int) (ag : Agent) (b : AudioRingBuffer)
    (s : Nat) : Int :=
  clip (match previousOutput ag b with
    | some p => master s - b.data (p + s)
    | none => master s)

/-! ### Frame admission (addAgent, main.cpp lines 174-222) -/

/-- The pre-write safety step of addAgent (lines 200-207): a NULL write
cursor is initialized to the buffer start; when the unread backlog exceeds
capacity minus one frame, both cursors collapse to the buffer start and the
started flag is cleared. -/
def admitGuard (b : AudioRingBuffer) : AudioRingBuffer :=
  match b.endOfLastWrite with
  | none => { b with endOfLastWrite := some 0 }
  | some w =>
    if RING_BUFFER_SAMPLES - BUFFER_LENGTH_SAMPLES <
        diffLastWriteNextOutput w b.nextOutput then
      { b with endOfLastWrite := some 0, nextOutput := 0, started := false }
    else b

/-- The frame copy of addAgent (lines 209-215): one frame of samples is
copied at the write cursor, which then advances one frame with wraparound.
The copy itself is linear, exactly like the memcpy in the source. -/
def writeFrame (b : AudioRingBuffer) (frame : Nat → Int) : AudioRingBuffer :=
  match b.endOfLastWrite with
  | none => b
  | some w =>
    { b with
      data := fun idx =>
        if w ≤ idx ∧ idx < w + BUFFER_LENGTH_SAMPLES then frame (idx - w)
        else b.data idx,
      endOfLastWrite := some (advanceCursor w) }

/-- The full buffer side of one admission: guard, then frame copy. -/
def admitWrite (b : AudioRingBuffer) (frame : Nat → Int) : AudioRingBuffer :=
  writeFrame (admitGuard b) frame

/-- Identity match of the lookup loop (lines 179-184): same address string
and same port. -/
def matchesIdentity (addr port : Nat) (ag : Agent) : Bool :=
  ag.address = addr && ag.port = port

/-- The mutable global tables: the live prefix agents[0..numAgents) of the
agents array, and the fixed array of MAX_SOURCE_BUFFERS source buffers. -/
structure MixerState where
  agents : List Agent
  sourceBuffers : List AudioRingBuffer

/-- addAgent (main.cpp lines 174-222).  The lookup loop scans the live
prefix for the first entry matching address and port; a missing match
leaves i = numAgents.  A new or inactive slot resets address and
bufferTransmitted; every admission refreshes port, active and time, then
writes the frame into sourceBuffers[i].  The source performs no bound
check: writing agents[numAgents] with the table full, or touching
sourceBuffers[i] with i past its length, is an out-of-bounds access,
modelled here as none. -/
def addAgent (st : MixerState) (addr port : Nat) (now : Int)
    (frame : Nat → Int) : Option (Bool × MixerState) :=
  let i := st.agents.findIdx (matchesIdentity addr port)
  match st.agents[i]? with
  | some ag =>
    let isNew := ag.active = false
    let ag0 := if isNew then
        { ag with address := addr, bufferTransmitted := false }
      else ag
    let ag1 := { ag0 with port := port, active := true, time := now }
    match st.sourceBuffers[i]? with
    | none => none
    | some b =>
      some (decide isNew,
        { agents := st.agents.set i ag1,
          sourceBuffers := st.sourceBuffers.set i (admitWrite b frame) })
  | none =>
    if MAX_AGENTS ≤ st.agents.length then none
    else
      let ag1 : Agent :=
        { address := addr, port := port, active := true, time := now,
          bufferTransmitted := false }
      match st.sourceBuffers[i]? with
      | none => none
      | some b =>
        some (true,
          { agents := st.agents ++ [ag1],
            sourceBuffers := st.sourceBuffers.set i (admitWrite b frame) })

/-! ### The cycle scheduler (main.cpp lines 70-172)

The double timestamp arithmetic is modelled exactly over the rationals;
times are microsecond counts. -/

/-- Microseconds per cycle (line 26): (512 / 22050) * 1000000, modelled as
the exact rational the float approximates. -/
def BUFFER_SEND_INTERVAL_USECS : ℚ :=
  512 * 1000000 / 22050

/-- usecTimestamp (lines 66-68): a time plus an offset in microseconds. -/
def usecTimestamp (time addedUsecs : ℚ) : ℚ :=
  time + addedUsecs

/-- The loop-carried scheduler state of sendBuffer: the fixed start time
(line 79) and the cycle counter currentFrame (lines 73 and 168). -/
structure SchedState where
  startTime : ℚ
  currentFrame : Nat

/-- The absolute target deadline of the current cycle (line 160):
startTime plus currentFrame times the send interval. -/
def deadline (st : SchedState) : ℚ :=
  usecTimestamp st.startTime (st.currentFrame * BUFFER_SEND_INTERVAL_USECS)

/-- The sleep budget of the current cycle (line 160). -/
def usecToSleep (st : SchedState) (now : ℚ) : ℚ :=
  deadline st - usecTimestamp now 0

/-- One pass of the tail of the cycle loop (lines 158-168): sleep the
positive remainder of the budget, otherwise report an overrun and sleep
nothing; in both cases only the frame counter advances. -/
def schedStep (st : SchedState) (now : ℚ) : Option ℚ × SchedState :=
  ((if 0 < usecToSleep st now then some (usecToSleep st now) else none),
    { st with currentFrame := st.currentFrame + 1 })

/-- Several cycles in sequence, given the observed completion time of each
cycle. -/
def schedRun (st : SchedState) (nows : List ℚ) : SchedState :=
  nows.foldl (fun s n => (schedStep s n).2) st

/-! ### Concrete states used by witnesses and counterexamples -/

/-- A fresh, never-written ring buffer. -/
def freshBuf : AudioRingBuffer :=
  { data := fun _ => 0, nextOutput := 0, endOfLastWrite := none,
    started := false }

/-- A buffer holding exactly two frames of value 100, read cursor at the
start, already started. -/
def startedBuf : AudioRingBuffer :=
  { data := fun _ => 100, nextOutput := 0, endOfLastWrite := some 1024,
    started := true }

/-- A source array in which only buffer 0 has ever been written. -/
def singleBufs : Fin MAX_SOURCE_BUFFERS → AudioRingBuffer :=
  fun i => if (i : Nat) = 0 then startedBuf else freshBuf

/-- An agent entry for the single contributor of singleBufs. -/
def singleAgent : Agent :=
  { address := 1, port := 7, active := true, time := 0,
    bufferTransmitted := false }

/-- A buffer whose backlog is exactly one frame plus the jitter threshold
(953 samples) and which has not started. -/
def heldBuf : AudioRingBuffer :=
  { data := fun _ => 7, nextOutput := 0, endOfLastWrite := some 953,
    started := false }

/-- A started buffer whose backlog (100 samples) is below one frame, with
distinct cursors. -/
def starvedBuf : AudioRingBuffer :=
  { data := fun _ => 7, nextOutput := 0, endOfLastWrite := some 100,
    started := true }

/-- A buffer with an unaligned write cursor whose backlog 4900 exceeds
capacity minus one frame. -/
def overfullBuf : AudioRingBuffer :=
  { data := fun _ => 7, nextOutput := 100, endOfLastWrite := some 5000,
    started := true }

/-- A mixer state whose 20 source buffers are all occupied by 20 distinct
active agents: the next distinct identity overruns the buffer array. -/
def fullState : MixerState :=
  { agents := (List.range MAX_SOURCE_BUFFERS).map fun n =>
      { address := n + 1, port := 7, active := true, time := 0,
        bufferTransmitted := false },
    sourceBuffers := List.replicate MAX_SOURCE_BUFFERS freshBuf }

/-- The first buffer slot. -/
def bufIdx0 : Fin MAX_SOURCE_BUFFERS := ⟨0, by decide⟩

/-- A buffer whose backlog is one sample above one frame plus the jitter
threshold, not yet started. -/
def transitBuf : AudioRingBuffer :=
  { data := fun _ => 7, nextOutput := 0, endOfLastWrite := some 954,
    started := false }

/-- A two-agent state for exercising the admission bookkeeping. -/
def twoAgentState : MixerState :=
  { agents :=
      [{ address := 1, port := 7, active := true, time := 0,
         bufferTransmitted := true },
       { address := 2, port := 9, active := true, time := 0,
         bufferTransmitted := false }],
    sourceBuffers := List.replicate MAX_SOURCE_BUFFERS freshBuf }

/-! ## Theorems -/

/-- C5: for every composed output sample, the clip operation saturates the
wide accumulator value into the signed 16-bit range: values above the
maximum clamp to the maximum, values below the minimum clamp to the
minimum, in-range values pass through unchanged, and the result always lies
in the representable range, so no wraparound occurs. -/
theorem clip_saturates (x : Int) :
    (MAX_SAMPLE_VALUE < x → clip x = MAX_SAMPLE_VALUE) ∧
    (x < MIN_SAMPLE_VALUE → clip x = MIN_SAMPLE_VALUE) ∧
    (MIN_SAMPLE_VALUE ≤ x → x ≤ MAX_SAMPLE_VALUE → clip x = x) ∧
    MIN_SAMPLE_VALUE ≤ clip x ∧ clip x ≤ MAX_SAMPLE_VALUE := by
  unfold clip MAX_SAMPLE_VALUE MIN_SAMPLE_VALUE
  split <;> refine ⟨?_, ?_, ?_, ?_, ?_⟩ <;> omega

/-- Witness for C5 at a saturating, an underflowing and an in-range
value. -/
theorem clip_saturates_witness :
    clip 40000 = MAX_SAMPLE_VALUE ∧ clip (-40000) = MIN_SAMPLE_VALUE ∧
    clip 5 = 5 :=
  ⟨(clip_saturates 40000).1 (by decide),
    (clip_saturates (-40000)).2.1 (by decide),
    (clip_saturates 5).2.2.1 (by decide) (by decide)⟩

/-- C2 counterexample: a buffer whose backlog equals exactly one frame plus
the jitter threshold (953 samples) is held back this cycle and does not
transition to Started, contrary to the claimed backlog threshold of
greater-or-equal. -/
theorem held_at_exact_threshold :
    heldBuf.endOfLastWrite = some 953 ∧ heldBuf.nextOutput = 0 ∧
    heldBuf.started = false ∧
    diffLastWriteNextOutput 953 0 =
      BUFFER_LENGTH_SAMPLES + JITTER_BUFFER_SAMPLES ∧
    (mixStep heldBuf).started = false ∧ mixes heldBuf = false := by
  decide

/-- C2 (amended): a Buffering peer transitions to Started exactly when its
backlog strictly exceeds one frame plus the jitter threshold; at or below
that bound it stays Buffering. -/
theorem buffering_to_started_iff (b : AudioRingBuffer) (w : Nat)
    (hw : b.endOfLastWrite = some w) (hs : b.started = false) :
    (mixStep b).started = true ↔
      BUFFER_LENGTH_SAMPLES + JITTER_BUFFER_SAMPLES <
        diffLastWriteNextOutput w b.nextOutput := by
  have hF : BUFFER_LENGTH_SAMPLES = 512 := rfl
  have hJ : JITTER_BUFFER_SAMPLES = 441 := rfl
  unfold mixStep
  rw [hw]
  dsimp only
  split_ifs with h1 h2
  · obtain ⟨-, hle⟩ := h1
    rw [hs]
    exact ⟨(fun h => nomatch h), fun h => absurd h (by omega)⟩
  · have hgt : ¬ diffLastWriteNextOutput w b.nextOutput ≤
        BUFFER_LENGTH_SAMPLES + JITTER_BUFFER_SAMPLES :=
      fun hle => h1 ⟨hs, hle⟩
    exact absurd h2 (by omega)
  · have hgt : ¬ diffLastWriteNextOutput w b.nextOutput ≤
        BUFFER_LENGTH_SAMPLES + JITTER_BUFFER_SAMPLES :=
      fun hle => h1 ⟨hs, hle⟩
    simp only
    exact ⟨fun _ => by omega, fun _ => trivial⟩

/-- Witness for C2: one sample above the bound does start playback. -/
theorem buffering_to_started_iff_witness :
    (mixStep transitBuf).started = true :=
  (buffering_to_started_iff transitBuf 954 rfl rfl).mpr (by decide)

/-- C3 counterexample: a Started buffer with backlog 100 (below one frame)
starves, but its read cursor stays at 0 while the write cursor stays at
100: the cursors do not collapse, so the ring buffer is not reset. -/
theorem starvation_does_not_reset :
    starvedBuf.started = true ∧ starvedBuf.endOfLastWrite = some 100 ∧
    starvedBuf.nextOutput = 0 ∧
    diffLastWriteNextOutput 100 0 < BUFFER_LENGTH_SAMPLES ∧
    (mixStep starvedBuf).started = false ∧
    (mixStep starvedBuf).nextOutput = 0 ∧
    (mixStep starvedBuf).endOfLastWrite = some 100 ∧
    (0 : Nat) ≠ 100 := by
  decide

/-- C3 (amended): a Started peer whose backlog at read time is below one
frame transitions back to Buffering and contributes silence this cycle,
but only the started flag changes: the cursors and the stored samples are
untouched (the cursor collapse happens only in the admission guard). -/
theorem starvation_clears_started_only (b : AudioRingBuffer) (w : Nat)
    (hw : b.endOfLastWrite = some w) (hs : b.started = true)
    (hlow : diffLastWriteNextOutput w b.nextOutput < BUFFER_LENGTH_SAMPLES) :
    mixStep b = { b with started := false } ∧ mixes b = false := by
  unfold mixStep mixes
  rw [hw]
  simp only [hs]
  constructor <;> split_ifs <;> simp_all

/-- Witness for C3 at the concrete starved buffer. -/
theorem starvation_clears_started_only_witness :
    mixStep starvedBuf = { starvedBuf with started := false } ∧
    mixes starvedBuf = false :=
  starvation_clears_started_only starvedBuf 100 rfl rfl (by decide)

/-- C8: from any reachable cursor pair (both in range and frame-aligned),
a write of one frame followed immediately by a read of one frame returns
the backlog to its pre-write value, the backlog always lies in
[0, capacity), and the advanced write cursor remains in range and
aligned. -/
theorem backlog_roundtrip (b : AudioRingBuffer) (frame : Nat → Int)
    (w r : Nat) (hw : b.endOfLastWrite = some w) (_hr : b.nextOutput = r)
    (hwlt : w < RING_BUFFER_SAMPLES) (hrlt : r < RING_BUFFER_SAMPLES)
    (haw : BUFFER_LENGTH_SAMPLES ∣ w) (har : BUFFER_LENGTH_SAMPLES ∣ r) :
    (writeFrame b frame).endOfLastWrite = some (advanceCursor w) ∧
    diffLastWriteNextOutput (advanceCursor w) (advanceCursor r) =
      diffLastWriteNextOutput w r ∧
    diffLastWriteNextOutput w r < RING_BUFFER_SAMPLES ∧
    advanceCursor w < RING_BUFFER_SAMPLES ∧
    BUFFER_LENGTH_SAMPLES ∣ advanceCursor w := by
  refine ⟨?_, ?_, ?_, ?_, ?_⟩
  · unfold writeFrame
    rw [hw]
  all_goals
    simp only [diffLastWriteNextOutput, advanceCursor, RING_BUFFER_SAMPLES,
      BUFFER_LENGTH_SAMPLES] at hwlt hrlt haw har ⊢
  all_goals
    first
      | (split_ifs <;> omega)
      | omega

/-- Witness for C8 at the concrete two-frame buffer. -/
theorem backlog_roundtrip_witness :
    (writeFrame startedBuf (fun _ => 0)).endOfLastWrite =
      some (advanceCursor 1024) ∧
    diffLastWriteNextOutput (advanceCursor 1024) (advanceCursor 0) =
      diffLastWriteNextOutput 1024 0 ∧
    diffLastWriteNextOutput 1024 0 < RING_BUFFER_SAMPLES ∧
    advanceCursor 1024 < RING_BUFFER_SAMPLES ∧
    BUFFER_LENGTH_SAMPLES ∣ advanceCursor 1024 :=
  backlog_roundtrip startedBuf (fun _ => 0) 1024 0 rfl rfl (by decide)
    (by decide) (by decide) (by decide)

/-- C9: the admission path is overwrite-safe.  First, whenever the unread
backlog before the frame copy exceeds capacity minus one frame, the guard
collapses both cursors to the buffer start and clears the started flag.
Second, after the guard the backlog never exceeds capacity minus one frame,
hence one frame-sized write keeps the total at most the capacity, and none
of the frame slots about to be written coincides with an unread slot. -/
theorem admission_guard_overwrite_safe :
    (∀ b w, b.endOfLastWrite = some w →
      RING_BUFFER_SAMPLES - BUFFER_LENGTH_SAMPLES <
        diffLastWriteNextOutput w b.nextOutput →
      admitGuard b =
        { b with
          endOfLastWrite := some 0
          nextOutput := 0
          started := false }) ∧
    (∀ b w, b.endOfLastWrite = some w →
      w < RING_BUFFER_SAMPLES → b.nextOutput < RING_BUFFER_SAMPLES →
      ∃ w2, (admitGuard b).endOfLastWrite = some w2 ∧
        diffLastWriteNextOutput w2 (admitGuard b).nextOutput +
          BUFFER_LENGTH_SAMPLES ≤ RING_BUFFER_SAMPLES ∧
        ∀ j, j < BUFFER_LENGTH_SAMPLES →
          ∀ t, t < diffLastWriteNextOutput w2 (admitGuard b).nextOutput →
            w2 + j ≠
              ((admitGuard b).nextOutput + t) % RING_BUFFER_SAMPLES) := by
  constructor
  · intro b w hw hover
    unfold admitGuard
    rw [hw]
    dsimp only
    rw [if_pos hover]
  · intro b w hw hwlt hrlt
    unfold admitGuard
    rw [hw]
    dsimp only
    split_ifs with hover
    · refine ⟨0, rfl, ?_, ?_⟩
      · simp only [diffLastWriteNextOutput, RING_BUFFER_SAMPLES,
          BUFFER_LENGTH_SAMPLES]
        omega
      · intro j hj t ht
        simp only [diffLastWriteNextOutput, RING_BUFFER_SAMPLES,
          BUFFER_LENGTH_SAMPLES] at ht
        omega
    · refine ⟨w, hw, ?_, ?_⟩
      · simp only [diffLastWriteNextOutput, RING_BUFFER_SAMPLES,
          BUFFER_LENGTH_SAMPLES] at hover ⊢
        omega
      · intro j hj t ht
        simp only [diffLastWriteNextOutput, RING_BUFFER_SAMPLES,
          BUFFER_LENGTH_SAMPLES] at hover ht ⊢
        simp only [BUFFER_LENGTH_SAMPLES] at hj
        omega

/-- Witness for C9: the overfull unaligned buffer is reset by the guard,
and the started two-frame buffer admits a frame without touching unread
slots. -/
theorem admission_guard_overwrite_safe_witness :
    admitGuard overfullBuf =
      { overfullBuf with
        endOfLastWrite := some 0
        nextOutput := 0
        started := false } ∧
    (∃ w2, (admitGuard startedBuf).endOfLastWrite = some w2 ∧
      diffLastWriteNextOutput w2 (admitGuard startedBuf).nextOutput +
        BUFFER_LENGTH_SAMPLES ≤ RING_BUFFER_SAMPLES ∧
      ∀ j, j < BUFFER_LENGTH_SAMPLES →
        ∀ t, t < diffLastWriteNextOutput w2 (admitGuard startedBuf).nextOutput →
          w2 + j ≠
            ((admitGuard startedBuf).nextOutput + t) % RING_BUFFER_SAMPLES) :=
  ⟨admission_guard_overwrite_safe.1 overfullBuf 5000 rfl (by decide),
    admission_guard_overwrite_safe.2 startedBuf 1024 rfl (by decide)
      (by decide)⟩

/-- C4 (code_bug): addAgent enforces no population bound.  In a state whose
20 source buffers are all owned by distinct active agents, a frame from a
21st identity matches no entry, so the code dereferences sourceBuffers[20]
(one past the end of the buffer array, modelled as none): the admission is
not rejected with a capacity signal, it is an out-of-bounds access. -/
theorem admission_past_buffer_bound_crashes :
    fullState.agents.length = MAX_SOURCE_BUFFERS ∧
    (∀ ag ∈ fullState.agents, matchesIdentity 21 7 ag = false) ∧
    fullState.sourceBuffers.length = MAX_SOURCE_BUFFERS ∧
    addAgent fullState 21 7 0 (fun _ => 0) = none :=
  ⟨by decide, by decide, by simp [fullState], rfl⟩

/-- Witness for C4 at the first entry of the full table: the fresh
identity matches no live entry. -/
theorem admission_past_buffer_bound_crashes_witness :
    matchesIdentity 21 7
      { address := 1, port := 7, active := true, time := 0,
        bufferTransmitted := false } = false :=
  admission_past_buffer_bound_crashes.2.1
    { address := 1, port := 7, active := true, time := 0,
      bufferTransmitted := false } (by decide)

/-- C7: the scheduler uses absolute deadlines.  The target deadline of the
current cycle is startTime plus currentFrame times the send interval; the
cycle sleeps exactly the positive remainder of that deadline and reports an
overrun (sleeping nothing) otherwise; the successor state is independent of
the observed completion time, and after any sequence of cycles the frame
counter has advanced by exactly the number of cycles, so the deadline of
cycle k stays startTime + k * interval and an overrun never shifts later
deadlines. -/
theorem scheduler_absolute_deadlines (st : SchedState) (now now2 : ℚ)
    (nows : List ℚ) :
    deadline st = st.startTime + st.currentFrame * BUFFER_SEND_INTERVAL_USECS ∧
    (schedStep st now).1 =
      (if 0 < deadline st - now then some (deadline st - now) else none) ∧
    (schedStep st now).2 = (schedStep st now2).2 ∧
    (schedStep st now).2.startTime = st.startTime ∧
    (schedStep st now).2.currentFrame = st.currentFrame + 1 ∧
    deadline (schedStep st now).2 =
      st.startTime + (st.currentFrame + 1) * BUFFER_SEND_INTERVAL_USECS ∧
    (schedRun st nows).startTime = st.startTime ∧
    (schedRun st nows).currentFrame = st.currentFrame + nows.length ∧
    deadline (schedRun st nows) =
      st.startTime + (st.currentFrame + nows.length) *
        BUFFER_SEND_INTERVAL_USECS := by
  have hrun : ∀ (l : List ℚ) (s : SchedState),
      (schedRun s l).startTime = s.startTime ∧
      (schedRun s l).currentFrame = s.currentFrame + l.length := by
    intro l
    induction l with
    | nil => intro s; exact ⟨rfl, rfl⟩
    | cons n l ih =>
      intro s
      have := ih { s with currentFrame := s.currentFrame + 1 }
      refine ⟨this.1, ?_⟩
      rw [schedRun, List.foldl_cons]
      have h2 := this.2
      rw [schedRun] at h2
      simpa [schedStep, Nat.add_assoc, Nat.add_comm 1 l.length] using h2
  refine ⟨rfl, ?_, rfl, rfl, rfl, ?_, (hrun nows st).1, (hrun nows st).2, ?_⟩
  · unfold schedStep usecToSleep usecTimestamp
    norm_num
  · unfold deadline schedStep usecTimestamp
    push_cast
    ring
  · rw [deadline, (hrun nows st).1, (hrun nows st).2]
    unfold usecTimestamp
    push_cast
    ring

set_option maxRecDepth 4096 in
/-- C1: with exactly one source buffer ever written, that buffer Started
with at least one frame of backlog, the master accumulator equals that
buffer frame sample-for-sample, the live owning agent is sent a frame, and
every sample of the personalized mix-minus output composed for it is zero
(full self-cancellation). -/
theorem single_contributor_self_cancel
    (bufs : Fin MAX_SOURCE_BUFFERS → AudioRingBuffer)
    (k : Fin MAX_SOURCE_BUFFERS) (ag : Agent) (sendTime : Int) (w : Nat)
    (hw : (bufs k).endOfLastWrite = some w)
    (hst : (bufs k).started = true)
    (hbk : BUFFER_LENGTH_SAMPLES ≤
      diffLastWriteNextOutput w (bufs k).nextOutput)
    (hr : (bufs k).nextOutput ≤ RING_BUFFER_SAMPLES - BUFFER_LENGTH_SAMPLES)
    (hothers : ∀ j, j ≠ k → (bufs j).endOfLastWrite = none)
    (hlive : diffclock ag.time sendTime ≤ LOGOFF_CHECK_INTERVAL) :
    (∀ s, masterMix bufs s = (bufs k).data ((bufs k).nextOutput + s)) ∧
    sendsTo ag sendTime = true ∧
    (∀ s, clientMixSample (masterMix bufs) (agentAfterMix ag (bufs k))
      (mixStep (bufs k)) s = 0) := by
  have hnc1 : ¬ ((bufs k).started = false ∧
      diffLastWriteNextOutput w (bufs k).nextOutput ≤
        BUFFER_LENGTH_SAMPLES + JITTER_BUFFER_SAMPLES) := by
    intro h
    rw [hst] at h
    exact Bool.noConfusion h.1
  have hnc2 : ¬ (diffLastWriteNextOutput w (bufs k).nextOutput <
      BUFFER_LENGTH_SAMPLES) := by omega
  have hmix : mixes (bufs k) = true := by
    unfold mixes
    rw [hw]
    dsimp only
    rw [if_neg hnc1, if_neg hnc2]
  have hmaster : ∀ s,
      masterMix bufs s = (bufs k).data ((bufs k).nextOutput + s) := by
    intro s
    unfold masterMix
    rw [Finset.sum_eq_single k]
    · rw [hmix]
      simp
    · intro j _ hne
      have hnone : mixes (bufs j) = false := by
        unfold mixes
        rw [hothers j hne]
      rw [hnone]
      simp
    · intro hk
      exact absurd (Finset.mem_univ k) hk
  have hstep : mixStep (bufs k) =
      { bufs k with
        started := true
        nextOutput := advanceCursor (bufs k).nextOutput } := by
    unfold mixStep
    rw [hw]
    dsimp only
    rw [if_neg hnc1, if_neg hnc2, hw]
  have hbt : (agentAfterMix ag (bufs k)).bufferTransmitted = true := by
    unfold agentAfterMix
    rw [hmix]
    simp
  refine ⟨hmaster, ?_, ?_⟩
  · unfold sendsTo
    exact decide_eq_true hlive
  · intro s
    have hno : (mixStep (bufs k)).nextOutput =
        advanceCursor (bufs k).nextOutput := by
      rw [hstep]
    have hdata : (mixStep (bufs k)).data = (bufs k).data := by
      rw [hstep]
    have hprev : previousOutput (agentAfterMix ag (bufs k))
        (mixStep (bufs k)) = some ((bufs k).nextOutput) := by
      unfold previousOutput
      rw [hbt, hno]
      rw [if_pos rfl]
      congr 1
      simp only [advanceCursor, RING_BUFFER_SAMPLES,
        BUFFER_LENGTH_SAMPLES] at hr ⊢
      split_ifs <;> first | contradiction | omega
    unfold clientMixSample
    rw [hprev]
    dsimp only
    rw [hdata, hmaster s]
    simp [clip, MIN_SAMPLE_VALUE, MAX_SAMPLE_VALUE]

/-- Witness for C1 at the concrete single-contributor state. -/
theorem single_contributor_self_cancel_witness :
    (∀ s, masterMix singleBufs s =
      (singleBufs bufIdx0).data ((singleBufs bufIdx0).nextOutput + s)) ∧
    sendsTo singleAgent 0 = true ∧
    (∀ s, clientMixSample (masterMix singleBufs)
      (agentAfterMix singleAgent (singleBufs bufIdx0))
      (mixStep (singleBufs bufIdx0)) s = 0) :=
  single_contributor_self_cancel singleBufs bufIdx0 singleAgent 0 1024
    (by decide) (by decide) (by decide) (by decide) (by decide) (by decide)

/-- C6 counterexample: an agent last seen 2000 milliseconds before the
cycle is past the liveness window and is skipped by the send loop, yet its
buffer still mixes and the master accumulator picks up its buffered sample
value 100: the stale peer IS folded into the master mix, contrary to the
claim. -/
theorem stale_peer_still_mixed :
    LOGOFF_CHECK_INTERVAL < diffclock singleAgent.time 2000 ∧
    sendsTo singleAgent 2000 = false ∧
    mixes (singleBufs bufIdx0) = true ∧
    masterMix singleBufs 0 = 100 ∧ (100 : Int) ≠ 0 := by
  decide

/-- C6 (amended): a peer whose time since last inbound frame exceeds the
liveness window is not sent a composed output frame, but the mix loop never
consults liveness: any buffer that satisfies the mixing conditions keeps
being folded into the master accumulator, stale owner or not. -/
theorem stale_skipped_by_send_loop_only
    (ag : Agent) (sendTime : Int)
    (hstale : LOGOFF_CHECK_INTERVAL < diffclock ag.time sendTime)
    (bufs : Fin MAX_SOURCE_BUFFERS → AudioRingBuffer)
    (k : Fin MAX_SOURCE_BUFFERS) (s : Nat)
    (hmix : mixes (bufs k) = true) :
    sendsTo ag sendTime = false ∧
    masterMix bufs s =
      (bufs k).data ((bufs k).nextOutput + s) +
        (Finset.univ.erase k).sum
          (fun i => if mixes (bufs i) then
            (bufs i).data ((bufs i).nextOutput + s) else 0) := by
  constructor
  · unfold sendsTo
    exact decide_eq_false (by omega)
  · unfold masterMix
    rw [← Finset.add_sum_erase Finset.univ _ (Finset.mem_univ k), hmix]
    simp

/-- Witness for C6 (amended) at the concrete stale single-contributor
state. -/
theorem stale_skipped_by_send_loop_only_witness :
    sendsTo singleAgent 2000 = false ∧
    masterMix singleBufs 0 =
      (singleBufs bufIdx0).data ((singleBufs bufIdx0).nextOutput + 0) +
        (Finset.univ.erase bufIdx0).sum
          (fun i => if mixes (singleBufs i) then
            (singleBufs i).data ((singleBufs i).nextOutput + 0) else 0) :=
  stale_skipped_by_send_loop_only singleAgent 2000 (by decide) singleBufs
    bufIdx0 0 (by decide)

/-- C10: admitting a frame from an identity already present and active is
non-growing: addAgent reports the peer as not new, the table keeps its
length, and the entry is only refreshed in its port and last-activity
timestamp (active stays true, bufferTransmitted untouched) while the frame
goes into its buffer; and for any successful admission the population grows
by one exactly when no live entry matches the identity, in which case the
new entry is appended at the end of the table. -/
theorem admit_existing_active_non_growing
    (st : MixerState) (addr port : Nat) (now : Int) (frame : Nat → Int)
    (i : Nat) (ag : Agent) (b : AudioRingBuffer)
    (hfind : st.agents.findIdx (matchesIdentity addr port) = i)
    (hag : st.agents[i]? = some ag)
    (hactive : ag.active = true)
    (hb : st.sourceBuffers[i]? = some b) :
    addAgent st addr port now frame =
      some (false,
        { agents := st.agents.set i { ag with port := port, time := now },
          sourceBuffers := st.sourceBuffers.set i (admitWrite b frame) }) ∧
    (st.agents.set i { ag with port := port, time := now }).length =
      st.agents.length ∧
    (∀ addr2 port2 res,
      addAgent st addr2 port2 now frame = some res →
      ((res.2.agents.length = st.agents.length + 1 ↔
          ∀ ag2 ∈ st.agents, matchesIdentity addr2 port2 ag2 = false) ∧
        (res.2.agents.length = st.agents.length + 1 →
          res.2.agents.getLast? = some
            { address := addr2, port := port2, active := true, time := now,
              bufferTransmitted := false }))) := by
  have hentry :
      ({ ag with port := port, active := true, time := now } : Agent) =
        { ag with port := port, time := now } := by
    cases ag
    simp_all
  refine ⟨?_, List.length_set st.agents i _, ?_⟩
  · rw [← hentry]
    simp only [addAgent, hfind, hag, hb, hactive]
    simp
  · intro addr2 port2 res hres
    simp only [addAgent] at hres
    split at hres
    next ag2 hj =>
      split at hres
      next => exact absurd hres (by simp)
      next b2 hbj =>
        injection hres with hres2
        subst hres2
        constructor
        · constructor
          · intro hlen
            rw [List.length_set] at hlen
            omega
          · intro hall
            exfalso
            have hlt : st.agents.findIdx (matchesIdentity addr2 port2) <
                st.agents.length := by
              rcases List.getElem?_eq_some.mp hj with ⟨h, _⟩
              exact h
            have hpt := List.findIdx_getElem (w := hlt)
            rw [hall _ (List.getElem_mem hlt)] at hpt
            exact Bool.noConfusion hpt
        · intro hlen
          rw [List.length_set] at hlen
          omega
    next hj =>
      split at hres
      next => exact absurd hres (by simp)
      next hnotfull =>
        split at hres
        next => exact absurd hres (by simp)
        next b2 hbj =>
          injection hres with hres2
          subst hres2
          have hfound : st.agents.findIdx (matchesIdentity addr2 port2) =
              st.agents.length := by
            have hge : st.agents.length ≤
                st.agents.findIdx (matchesIdentity addr2 port2) := by
              by_contra hlt
              push_neg at hlt
              rw [List.getElem?_eq_getElem hlt] at hj
              exact Option.noConfusion hj
            exact le_antisymm (List.findIdx_le_length _) hge
          refine ⟨⟨fun _ => List.findIdx_eq_length.mp hfound, fun _ => ?_⟩,
            fun _ => List.getLast?_concat _⟩
          simp

/-- Witness for C10: refreshing the second (active) agent of the two-agent
state is non-growing and only updates port and timestamp. -/
theorem admit_existing_active_non_growing_witness :
    addAgent twoAgentState 2 9 5 (fun _ => 3) =
      some (false,
        { agents := twoAgentState.agents.set 1
            { ({ address := 2, port := 9, active := true, time := 0,
                 bufferTransmitted := false } : Agent) with
              port := 9, time := 5 },
          sourceBuffers := twoAgentState.sourceBuffers.set 1
            (admitWrite freshBuf (fun _ => 3)) }) ∧
    (twoAgentState.agents.set 1
      { ({ address := 2, port := 9, active := true, time := 0,
           bufferTransmitted := false } : Agent) with
        port := 9, time := 5 }).length = twoAgentState.agents.length ∧
    (∀ addr2 port2 res,
      addAgent twoAgentState addr2 port2 5 (fun _ => 3) = some res →
      ((res.2.agents.length = twoAgentState.agents.length + 1 ↔
          ∀ ag2 ∈ twoAgentState.agents,
            matchesIdentity addr2 port2 ag2 = false) ∧
        (res.2.agents.length = twoAgentState.agents.length + 1 →
          res.2.agents.getLast? = some
            { address := addr2, port := port2, active := true, time := 5,
              bufferTransmitted := false }))) :=
  admit_existing_active_non_growing twoAgentState 2 9 5 (fun _ => 3) 1
    { address := 2, port := 9, active := true, time := 0,
      bufferTransmitted := false } freshBuf rfl rfl rfl rfl

end Mixer
